import Mathlib

/-!
Verification of the per-frame face-swap compositing pipeline
(`lib/convert.py`, class `Converter`).

Pixel buffers are modelled as `Image`: a shape (height, width, channels)
together with a total pixel function `ℕ → ℕ → ℕ → ℚ` (row, column, channel).
Machine floats are modelled by exact rationals.  External collaborators
(cv2 primitives and the pluggable adjustment stages, which the spec fixes
only by their call contracts) are fields of the `Converter` structure and
return `Except String Image` so that they can raise.  Python's `round` /
`np.rint` (round half to even) is `pyRound`.
-/

namespace Faceswap

/-- Python `round` / `np.rint`: round half to even. -/
def pyRound (q : ℚ) : ℤ :=
  let f := ⌊q⌋
  if q - f < 1 / 2 then f
  else if q - f > 1 / 2 then f + 1
  else if f % 2 = 0 then f else f + 1

/-- `np.clip(v, 0.0, 1.0)` on one scalar. -/
def clamp01 (v : ℚ) : ℚ := min (max v 0) 1

/-- A pixel buffer: shape plus a total pixel function (row, col, channel). -/
structure Image where
  h : ℕ
  w : ℕ
  c : ℕ
  px : ℕ → ℕ → ℕ → ℚ

/-- 2×3 affine matrix (two rows of three coefficients). -/
def Mat23 : Type := (ℚ × ℚ × ℚ) × (ℚ × ℚ × ℚ)

/-- Per-face geometric metadata (`detected_face` objects of the queue item). -/
structure DetectedFace where
  reference_face : Image
  reference_matrix : Mat23
  reference_interpolators : ℕ × ℕ
  landmarks_as_xy : List (ℚ × ℚ)

/-- A queue work item (`predicted` dict): filename, frame, paired face lists. -/
structure WorkItem where
  filename : String
  image : Image
  swapped_faces : List Image
  detected_faces : List DetectedFace

/-- A value on the input queue: either the `"EOF"` sentinel or a work item. -/
inductive QItem where
  | eof
  | work (w : WorkItem)

/-- cv2 interpolation / warp flag constants. -/
def WARP_INVERSE_MAP : ℕ := 16

def INTER_CUBIC : ℕ := 2

def INTER_AREA : ℕ := 3

/-- `img / 255.0` pointwise. -/
def normDiv255 (img : Image) : Image :=
  ⟨img.h, img.w, img.c, fun y x ch => img.px y x ch / 255⟩

/-- `np.concatenate((img, channel), axis=-1)` for one extra channel. -/
def appendChannel (img : Image) (v : ℕ → ℕ → ℚ) : Image :=
  ⟨img.h, img.w, img.c + 1, fun y x ch => if ch = img.c then v y x else img.px y x ch⟩

/-- `img[:, :, :3]`: keep (at most) the first three channels. -/
def takeRGB (img : Image) : Image :=
  ⟨img.h, img.w, min img.c 3, img.px⟩

/-- `img[:, :, -1]`: the last channel as a single-channel buffer. -/
def lastChannel (img : Image) : Image :=
  ⟨img.h, img.w, 1, fun y x _ => img.px y x (img.c - 1)⟩

/-- `new_face[:, :, -1] = np.minimum(new_face[:, :, -1], mask.squeeze())`. -/
def setAlphaMin (img : Image) (mask : Image) : Image :=
  ⟨img.h, img.w, img.c, fun y x ch =>
    if ch = img.c - 1 then min (img.px y x (img.c - 1)) (mask.px y x 0)
    else img.px y x ch⟩

/-- `np.clip(img, 0.0, 1.0)`. -/
def clip01 (img : Image) : Image :=
  ⟨img.h, img.w, img.c, fun y x ch => clamp01 (img.px y x ch)⟩

/-- `np.rint(img * 255.0).astype("uint8")`. -/
def quantizeImage (img : Image) : Image :=
  ⟨img.h, img.w, img.c, fun y x ch => ((pyRound (img.px y x ch * 255) % 256 : ℤ) : ℚ)⟩

/-- `predicted_mask = new_face[:, :, -1] if new_face.shape[2] == 4 else None`. -/
def predMask (img : Image) : Option Image :=
  if img.c = 4 then some (lastChannel img) else none

/-- `cv2.bitwise_or` of two single-channel binary masks: pointwise maximum
(its effect on `{0.0, 1.0}`-valued float buffers). -/
def orImage (a b : Image) : Image :=
  ⟨a.h, a.w, 1, fun y x _ => max (a.px y x 0) (b.px y x 0)⟩

/-- `foreground * mask + (image / 255) * (1 - mask)` of `post_warp_adjustments`:
last channel of `ni` broadcast as blend weight over the first three channels. -/
def blendFrame (bg : Image) (ni : Image) : Image :=
  ⟨ni.h, ni.w, 3, fun y x ch =>
    ni.px y x ch * ni.px y x (ni.c - 1) + bg.px y x ch / 255 * (1 - ni.px y x (ni.c - 1))⟩

/-- The orchestrator after construction (`Converter.__init__` / `load_plugins`).
Configuration fields mirror the Python attributes; the remaining fields are the
external collaborators resolved at construction time, kept only by their call
contracts: the box / mask / color / seamless / scaling adjustment stages, the
cv2 primitives (`warpAffine`, `resize`, `bitwiseOr`) and the default
landmark-mask generator of `lib.model.masks`.  `load_plugins` never constructs
a seamless stage, and constructs color / scaling stages only when configured. -/
structure Converter where
  draw_transparent : Bool
  writer_pre_encode : Option (Image → Except String Image)
  scale : ℚ
  box_run : Image → Except String Image
  mask_run : DetectedFace → Option Image → Except String (Image × Image)
  color_run : Option (Image → Image → Image → Except String Image)
  seamless_run : Option (Image → Image → Image → Except String Image)
  scaling_run : Option (Image → Except String Image)
  warpAffine : Image → Mat23 → ℕ × ℕ → Image → ℕ → Except String Image
  resize : Image → ℤ × ℤ → ℕ → Except String Image
  maskFromLandmarks : List (ℚ × ℚ) → Image → Except String Image
  bitwiseOr : Image → Image → Except String Image

/-- `Converter.get_image_mask`. -/
def get_image_mask (c : Converter) (new_face : Image) (detected_face : DetectedFace)
    (predicted_mask : Option Image) : Except String (Image × Image) := do
  let (mask, raw_mask) ← c.mask_run detected_face predicted_mask
  let new_face2 :=
    if new_face.c = 4 then setAlphaMin new_face mask
    else appendChannel new_face (fun y x => mask.px y x 0)
  pure (clip01 new_face2, raw_mask)

/-- `Converter.pre_warp_adjustments`. -/
def pre_warp_adjustments (c : Converter) (old_face new_face : Image)
    (detected_face : DetectedFace) (predicted_mask : Option Image) :
    Except String Image := do
  let nf ← c.box_run new_face
  let (nf, raw_mask) ← get_image_mask c nf detected_face predicted_mask
  let nf ← match c.color_run with
    | some f => f old_face nf raw_mask
    | none => pure nf
  let nf ← match c.seamless_run with
    | some f => f old_face nf raw_mask
    | none => pure nf
  pure nf

/-- One iteration of the per-face loop of `Converter.get_new_image`:
split off the predicted mask, run the pre-warp adjustments, warp the
4-channel patch into the placeholder, clip. -/
def compositeFace (c : Converter) (frame_size : ℕ × ℕ) (placeholder : Image)
    (pair : Image × DetectedFace) : Except String Image := do
  let new_face0 := pair.1
  let detected_face := pair.2
  let predicted_mask := predMask new_face0
  let new_face := takeRGB new_face0
  let src_face := detected_face.reference_face
  let interpolator := detected_face.reference_interpolators.2
  let new_face ← pre_warp_adjustments c src_face new_face detected_face predicted_mask
  let placeholder ← c.warpAffine new_face detected_face.reference_matrix frame_size
    placeholder (Nat.lor WARP_INVERSE_MAP interpolator)
  pure (clip01 placeholder)

/-- `Converter.get_new_image`. -/
def get_new_image (c : Converter) (predicted : WorkItem) (frame_size : ℕ × ℕ) :
    Except String Image :=
  let placeholder := appendChannel (normDiv255 predicted.image) (fun _ _ => 0)
  (predicted.swapped_faces.zip predicted.detected_faces).foldlM
    (compositeFace c frame_size) placeholder

/-- `Converter.add_alpha_mask`. -/
def add_alpha_mask (c : Converter) (frame : Image) (predicted : WorkItem) :
    Except String Image :=
  if c.draw_transparent = false then Except.ok frame
  else do
    let final_mask0 : Image := ⟨frame.h, frame.w, 1, fun _ _ _ => 0⟩
    let final_mask ← predicted.detected_faces.foldlM
      (fun acc df => do
        let m ← c.maskFromLandmarks df.landmarks_as_xy frame
        c.bitwiseOr acc m) final_mask0
    pure (appendChannel frame (fun y x => final_mask.px y x 0))

/-- The optional scaling stage applied in `post_warp_adjustments`. -/
def applyScaling (c : Converter) (img : Image) : Except String Image :=
  match c.scaling_run with
  | some f => f img
  | none => pure img

/-- `Converter.post_warp_adjustments`. -/
def post_warp_adjustments (c : Converter) (predicted : WorkItem) (new_image : Image) :
    Except String Image := do
  let ni ← applyScaling c new_image
  let frame := blendFrame predicted.image ni
  let frame ← add_alpha_mask c frame predicted
  pure (clip01 frame)

/-- `Converter.scale_image`. -/
def scale_image (c : Converter) (frame : Image) : Except String Image :=
  if c.scale = 1 then Except.ok frame
  else
    let interp := if 1 < c.scale then INTER_CUBIC else INTER_AREA
    let dims : ℤ × ℤ := (pyRound ((frame.w : ℚ) / 2 * c.scale * 2),
                         pyRound ((frame.h : ℚ) / 2 * c.scale * 2))
    c.resize frame dims interp

/-- `Converter.patch_image`. -/
def patch_image (c : Converter) (predicted : WorkItem) : Except String Image := do
  let frame_size := (predicted.image.w, predicted.image.h)
  let new_image ← get_new_image c predicted frame_size
  let patched ← post_warp_adjustments c predicted new_image
  let patched ← scale_image c patched
  let patched := quantizeImage patched
  match c.writer_pre_encode with
  | some f => f patched
  | none => pure patched

/-- `Converter.process`: the worker loop, as a function of the queued input.
Returns (outputs emitted, input queue left behind, whether the loop exited).
An exhausted queue without a sentinel leaves the worker blocked (`false`);
the sentinel is re-pushed onto the input queue and produces no output;
a failing `patch_image` substitutes the item's original frame. -/
def processLoop (c : Converter) : List QItem → List (String × Image) × List QItem × Bool
  | [] => ([], [], false)
  | QItem.eof :: rest => ([], rest ++ [QItem.eof], true)
  | QItem.work w :: rest =>
    let image :=
      match patch_image c w with
      | Except.ok img => img
      | Except.error _ => w.image
    let res := processLoop c rest
    ((w.filename, image) :: res.1, res.2.1, res.2.2)

/-! ### Concrete instances used by witnesses and counterexamples -/

/-- A 2×2×3 frame filled with the uint8 value 128. -/
def img128 : Image := ⟨2, 2, 3, fun _ _ _ => 128⟩

/-- A 1×1 single-channel all-ones mask. -/
def onesMask : Image := ⟨1, 1, 1, fun _ _ _ => 1⟩

/-- A 1×1×3 all-white (1.0) face patch. -/
def patchWhite : Image := ⟨1, 1, 3, fun _ _ _ => 1⟩

/-- A detected face with identity affine matrix and no landmarks. -/
def df0 : DetectedFace := ⟨patchWhite, ((1, 0, 0), (0, 1, 0)), (0, 1), []⟩

/-- A model `cv2.warpAffine` instance for an identity matrix: the warped patch
lands at the top-left, pixels outside its footprint keep the placeholder
(`BORDER_TRANSPARENT`). -/
def simpleWarp : Image → Mat23 → ℕ × ℕ → Image → ℕ → Except String Image :=
  fun nf _ _ ph _ => Except.ok
    ⟨ph.h, ph.w, ph.c, fun y x ch => if y < nf.h ∧ x < nf.w then nf.px y x ch else ph.px y x ch⟩

/-- A model `cv2.resize` instance: honours the requested output dimensions
(given in `(width, height)` order), sampling from the source corner. -/
def simpleResize : Image → ℤ × ℤ → ℕ → Except String Image :=
  fun f d _ => Except.ok ⟨d.2.toNat, d.1.toNat, f.c, f.px⟩

/-- A converter with total, succeeding collaborator instances, no optional
stages, scale 1, opaque output, no pre-encode hook. -/
def baseConv : Converter where
  draw_transparent := false
  writer_pre_encode := none
  scale := 1
  box_run := fun f => Except.ok f
  mask_run := fun _ _ => Except.ok (onesMask, onesMask)
  color_run := none
  seamless_run := none
  scaling_run := none
  warpAffine := simpleWarp
  resize := simpleResize
  maskFromLandmarks := fun _ f => Except.ok ⟨f.h, f.w, 1, fun _ _ _ => 1⟩
  bitwiseOr := fun a b => Except.ok (orImage a b)

/-- A converter whose box stage always raises. -/
def convBoom : Converter := { baseConv with box_run := fun _ => Except.error "boom" }

/-- A work item with one face pair. -/
def itemOne : WorkItem := ⟨"a", img128, [patchWhite], [df0]⟩

/-! ### Claims about the worker loop -/

/-- C6: when the worker loop pops the sentinel it pushes the sentinel back
onto the input queue exactly once, stops, and emits no output for it; and
popping the sentinel is the only way the loop terminates. -/
theorem process_sentinel_requeue_and_stop (c : Converter) (rest q : List QItem) :
    processLoop c (QItem.eof :: rest) = ([], rest ++ [QItem.eof], true) ∧
    ((processLoop c q).2.2 = true ↔ QItem.eof ∈ q) := by
  refine ⟨rfl, ?_⟩
  induction q with
  | nil => simp [processLoop]
  | cons a t ih =>
    cases a with
    | eof => simp [processLoop]
    | work w => simpa [processLoop] using ih

/-- C1: if `patch_image` raises on a popped work item, the worker emits the
item's filename paired with its untouched original frame, does not retry, and
the processing of the remaining queue is unaffected. -/
theorem process_failure_emits_original (c : Converter) (w : WorkItem) (rest : List QItem)
    (e : String) (h : patch_image c w = Except.error e) :
    processLoop c (QItem.work w :: rest) =
      ((w.filename, w.image) :: (processLoop c rest).1,
        (processLoop c rest).2.1, (processLoop c rest).2.2) := by
  simp [processLoop, h]

/-- Witness for C1: a converter whose box stage raises makes `patch_image`
fail on a one-face item, and the loop emits the original frame for it. -/
theorem process_failure_emits_original_witness :
    patch_image convBoom itemOne = Except.error "boom" ∧
    processLoop convBoom [QItem.work itemOne] = ([("a", itemOne.image)], [], false) :=
  ⟨rfl, process_failure_emits_original convBoom itemOne [] "boom" rfl⟩

/-! ### C2: the resize dimension formula -/

/-- A 100×100×3 all-zero frame. -/
def f100 : Image := ⟨100, 100, 3, fun _ _ _ => 0⟩

/-- A converter configured with `output_scale = 33` (scale fraction 33/100). -/
def convScale33 : Converter := { baseConv with scale := 33 / 100 }

/-- The claim's reading of `scale_image`: pass-through at scale 1, otherwise
resize to `(round(W/2×scale)×2, round(H/2×scale)×2)` — dimensions forced to
even integers — cubic when upscaling, area when downscaling. -/
def scaleEvenDimsClaim (c : Converter) (f : Image) : Prop :=
  (c.scale = 1 → scale_image c f = Except.ok f) ∧
  (c.scale ≠ 1 → scale_image c f =
    c.resize f (2 * pyRound ((f.w : ℚ) / 2 * c.scale), 2 * pyRound ((f.h : ℚ) / 2 * c.scale))
      (if 1 < c.scale then INTER_CUBIC else INTER_AREA))

/-- Counterexample to C2: at scale 33/100 on a 100-wide frame the code requests
width `round((100/2 × 0.33) × 2) = 33` (odd), not `round(100/2 × 0.33) × 2 = 32`:
the rounding happens after the doubling, so dimensions are not forced even. -/
theorem scale_image_even_dims_counterexample : ¬ scaleEvenDimsClaim convScale33 f100 := by
  intro hcl
  have h2 := hcl.2 (by norm_num [convScale33, baseConv])
  have hL : (scale_image convScale33 f100).map Image.w = Except.ok 33 := by
    norm_num [scale_image, convScale33, baseConv, f100, simpleResize, pyRound, Except.map]
    decide
  rw [h2] at hL
  revert hL
  norm_num [convScale33, baseConv, f100, simpleResize, pyRound, Except.map]
  decide

/-- C2 amended: `scale_image` is a bit-identical pass-through at scale 1;
otherwise it calls resize with dimensions `(round(W/2×scale×2), round(H/2×scale×2))`
(not forced even), cubic interpolation when scale > 1, area otherwise. -/
theorem scale_image_formula (c : Converter) (f : Image) :
    (c.scale = 1 → scale_image c f = Except.ok f) ∧
    (c.scale ≠ 1 → scale_image c f =
      c.resize f (pyRound ((f.w : ℚ) / 2 * c.scale * 2), pyRound ((f.h : ℚ) / 2 * c.scale * 2))
        (if 1 < c.scale then INTER_CUBIC else INTER_AREA)) := by
  constructor
  · intro h; simp [scale_image, h]
  · intro h; simp [scale_image, h]

/-- Witness for the amended C2, exercising both the pass-through branch and
the resize branch. -/
theorem scale_image_formula_witness :
    scale_image baseConv f100 = Except.ok f100 ∧
    scale_image convScale33 f100 =
      convScale33.resize f100
        (pyRound ((f100.w : ℚ) / 2 * convScale33.scale * 2),
         pyRound ((f100.h : ℚ) / 2 * convScale33.scale * 2))
        (if 1 < convScale33.scale then INTER_CUBIC else INTER_AREA) :=
  ⟨(scale_image_formula baseConv f100).1 rfl,
   (scale_image_formula convScale33 f100).2 (by norm_num [convScale33, baseConv])⟩

/-! ### C7: mismatched face-list lengths -/

theorem zip_take_length {α β : Type} : ∀ (l : List α) (l2 : List β),
    (l.take l2.length).zip l2 = l.zip l2
  | [], _ => by simp
  | _ :: _, [] => by simp
  | a :: l, b :: l2 => by simp [zip_take_length l l2]

/-- The claim's reading of C7: an item with mismatched list lengths is handled
identically to an exception — the original frame is substituted as its output. -/
def mismatchFailureClaim (c : Converter) (w : WorkItem) : Prop :=
  w.swapped_faces.length ≠ w.detected_faces.length →
    (processLoop c [QItem.work w]).1 = [(w.filename, w.image)]

/-- An item with two swapped faces but a single detected face. -/
def itemMismatch : WorkItem := ⟨"m", img128, [patchWhite, patchWhite], [df0]⟩

/-- The white patch after box stage and mask attachment (the value
`pre_warp_adjustments` produces for `itemMismatch`'s first pair). -/
def nfM : Image := clip01 (appendChannel (takeRGB patchWhite) (fun y x => onesMask.px y x 0))

/-- The initial placeholder for `itemMismatch`'s frame. -/
def ph0M : Image := appendChannel (normDiv255 img128) (fun _ _ => 0)

/-- The placeholder after the single face of `itemMismatch` is warped in. -/
def phM : Image := clip01
  ⟨ph0M.h, ph0M.w, ph0M.c, fun y x ch => if y < nfM.h ∧ x < nfM.w then nfM.px y x ch else ph0M.px y x ch⟩

set_option maxHeartbeats 2000000 in
/-- Counterexample to C7: a mismatched item is processed normally over the
zipped prefix — the emitted pixel at (0,0) is the composited white face (255),
not the original frame's 128, and no failure occurs. -/
theorem mismatch_not_failure_counterexample : ¬ mismatchFailureClaim baseConv itemMismatch := by
  intro hcl
  have h1 := hcl (by norm_num [itemMismatch])
  have hP : patch_image baseConv itemMismatch =
      Except.ok (quantizeImage (clip01 (blendFrame img128 phM))) := rfl
  have h3 : (processLoop baseConv [QItem.work itemMismatch]).1 =
      [(itemMismatch.filename, quantizeImage (clip01 (blendFrame img128 phM)))] := by
    simp [processLoop, hP]
  rw [h1] at h3
  simp only [List.cons.injEq, Prod.mk.injEq, and_true, true_and] at h3
  have h4 := congrArg (fun i : Image => i.px 0 0 0) h3
  revert h4
  norm_num [itemMismatch, img128, quantizeImage, clip01, clamp01, blendFrame, phM, ph0M, nfM,
    appendChannel, normDiv255, takeRGB, patchWhite, onesMask, pyRound]

/-- C7 amended: mismatched lengths never raise — Python's `zip` silently
truncates, so swapped faces beyond the detected-face list are ignored and the
item yields a normal (possibly partially composited) result. -/
theorem patch_image_zip_truncates (c : Converter) (p : WorkItem) :
    patch_image c { p with swapped_faces := p.swapped_faces.take p.detected_faces.length } =
      patch_image c p := by
  have hg : ∀ fs,
      get_new_image c { p with swapped_faces := p.swapped_faces.take p.detected_faces.length } fs =
        get_new_image c p fs := by
    intro fs
    dsimp only [get_new_image]
    rw [zip_take_length]
  unfold patch_image
  dsimp only
  rw [hg]
  rfl

/-! ### C10: which interpolator is passed to the warp -/

/-- Replace only the first element of a face's interpolator pair. -/
def setFirstInterp (df : DetectedFace) (k : ℕ) : DetectedFace :=
  { df with reference_interpolators := (k, df.reference_interpolators.2) }

theorem get_image_mask_setFirstInterp (c : Converter)
    (hmask : ∀ df2 pm2 j, c.mask_run (setFirstInterp df2 j) pm2 = c.mask_run df2 pm2)
    (nf : Image) (df : DetectedFace) (pm : Option Image) (k : ℕ) :
    get_image_mask c nf (setFirstInterp df k) pm = get_image_mask c nf df pm := by
  unfold get_image_mask
  rw [hmask]

theorem pre_warp_adjustments_setFirstInterp (c : Converter)
    (hmask : ∀ df2 pm2 j, c.mask_run (setFirstInterp df2 j) pm2 = c.mask_run df2 pm2)
    (old nf : Image) (df : DetectedFace) (pm : Option Image) (k : ℕ) :
    pre_warp_adjustments c old nf (setFirstInterp df k) pm =
      pre_warp_adjustments c old nf df pm := by
  unfold pre_warp_adjustments
  simp only [get_image_mask_setFirstInterp c hmask]

theorem compositeFace_setFirstInterp (c : Converter) (fs : ℕ × ℕ)
    (hmask : ∀ df2 pm2 j, c.mask_run (setFirstInterp df2 j) pm2 = c.mask_run df2 pm2)
    (ph nf : Image) (df : DetectedFace) (k : ℕ) :
    compositeFace c fs ph (nf, setFirstInterp df k) = compositeFace c fs ph (nf, df) := by
  unfold compositeFace
  dsimp only
  rw [pre_warp_adjustments_setFirstInterp c hmask]
  simp only [setFirstInterp]

theorem foldlM_compositeFace_setFirstInterp (c : Converter) (fs : ℕ × ℕ) (k : ℕ)
    (hmask : ∀ df2 pm2 j, c.mask_run (setFirstInterp df2 j) pm2 = c.mask_run df2 pm2) :
    ∀ (l : List (Image × DetectedFace)) (init : Image),
      (l.map (fun pr => (pr.1, setFirstInterp pr.2 k))).foldlM (compositeFace c fs) init =
        l.foldlM (compositeFace c fs) init
  | [], _ => rfl
  | pr :: l, init => by
    simp only [List.map_cons, List.foldlM_cons]
    rw [compositeFace_setFirstInterp c fs hmask init pr.1 pr.2 k]
    exact bind_congr fun b => foldlM_compositeFace_setFirstInterp c fs k hmask l b

/-- C10: the interpolation flag passed to the warp for every composited face
is the second element of `reference_interpolators` (ORed with the inverse-map
flag), and — provided the external mask stage does not read the first element
either — the whole of `get_new_image` is invariant under replacing the first
element of every face's interpolator pair: index 0 is never used. -/
theorem warp_uses_second_interpolator (c : Converter) (fs : ℕ × ℕ) (ph nf : Image)
    (df : DetectedFace) (k : ℕ) (p : WorkItem)
    (hmask : ∀ df2 pm2 j, c.mask_run (setFirstInterp df2 j) pm2 = c.mask_run df2 pm2) :
    compositeFace c fs ph (nf, df) =
      (pre_warp_adjustments c df.reference_face (takeRGB nf) df (predMask nf) >>= fun nf2 =>
        Except.map clip01 (c.warpAffine nf2 df.reference_matrix fs ph
          (Nat.lor WARP_INVERSE_MAP df.reference_interpolators.2))) ∧
    get_new_image c { p with detected_faces := p.detected_faces.map (fun d => setFirstInterp d k) }
        fs =
      get_new_image c p fs := by
  constructor
  · unfold compositeFace
    refine bind_congr fun nf2 => ?_
    cases hw : c.warpAffine nf2 df.reference_matrix fs ph
        (Nat.lor WARP_INVERSE_MAP df.reference_interpolators.2) <;>
      simp [Except.map, hw]
  · unfold get_new_image
    dsimp only
    rw [List.zip_map_right]
    rw [show (Prod.map id fun d => setFirstInterp d k) =
        (fun pr : Image × DetectedFace => (pr.1, setFirstInterp pr.2 k)) from rfl]
    exact foldlM_compositeFace_setFirstInterp c fs k hmask _ _

/-- Witness for C10 at a concrete converter (whose mask stage ignores the
detected face entirely), item, and interpolator replacement. -/
theorem warp_uses_second_interpolator_witness :
    (compositeFace baseConv (2, 2) ph0M (patchWhite, df0) =
      (pre_warp_adjustments baseConv df0.reference_face (takeRGB patchWhite) df0
          (predMask patchWhite) >>= fun nf2 =>
        Except.map clip01 (baseConv.warpAffine nf2 df0.reference_matrix (2, 2) ph0M
          (Nat.lor WARP_INVERSE_MAP df0.reference_interpolators.2)))) ∧
    get_new_image baseConv
        { itemOne with detected_faces := itemOne.detected_faces.map (fun d => setFirstInterp d 5) }
        (2, 2) =
      get_new_image baseConv itemOne (2, 2) :=
  warp_uses_second_interpolator baseConv (2, 2) ph0M patchWhite df0 5 itemOne
    (fun _ _ _ => rfl)

/-! ### Helper lemmas on `Except` and `clamp01` -/

@[simp] theorem exc_bind_ok {α β : Type} (a : α) (f : α → Except String β) :
    (Except.ok a : Except String α) >>= f = f a := rfl

@[simp] theorem exc_bind_error {α β : Type} (e : String) (f : α → Except String β) :
    (Except.error e : Except String α) >>= f = Except.error e := rfl

@[simp] theorem exc_pure {α : Type} (a : α) : (pure a : Except String α) = Except.ok a := rfl

theorem clamp01_mem (v : ℚ) : 0 ≤ clamp01 v ∧ clamp01 v ≤ 1 :=
  ⟨le_min (le_max_right v 0) zero_le_one, min_le_right _ _⟩

theorem clamp01_eq_self {v : ℚ} (h0 : 0 ≤ v) (h1 : v ≤ 1) : clamp01 v = v := by
  unfold clamp01
  rw [max_eq_left h0, min_eq_left h1]

/-! ### C3: the alpha-merge policy of `get_image_mask` -/

/-- C3: for every face, when the face carries 4 channels the post-merge alpha
is the (clamped) pointwise minimum of the existing alpha and the mask-stage
mask — never widening opacity beyond either source when both are in range;
when it has 3 channels the mask becomes the new 4th channel; the result is
clamped to [0,1]. -/
theorem mask_merge_policy (c : Converter) (nf : Image) (df : DetectedFace)
    (pm : Option Image) (mask raw : Image)
    (h : c.mask_run df pm = Except.ok (mask, raw)) :
    ∃ out, get_image_mask c nf df pm = Except.ok (out, raw) ∧
      (nf.c = 4 → out.c = 4 ∧
        ∀ y x, out.px y x 3 = clamp01 (min (nf.px y x 3) (mask.px y x 0))) ∧
      (nf.c = 3 → out.c = 4 ∧ ∀ y x, out.px y x 3 = clamp01 (mask.px y x 0)) ∧
      (∀ y x ch, 0 ≤ out.px y x ch ∧ out.px y x ch ≤ 1) ∧
      (nf.c = 4 → (∀ y x ch, 0 ≤ nf.px y x ch ∧ nf.px y x ch ≤ 1) →
        (∀ y x, 0 ≤ mask.px y x 0 ∧ mask.px y x 0 ≤ 1) →
        ∀ y x, out.px y x 3 ≤ nf.px y x 3 ∧ out.px y x 3 ≤ mask.px y x 0) := by
  refine ⟨clip01 (if nf.c = 4 then setAlphaMin nf mask
      else appendChannel nf (fun y x => mask.px y x 0)), ?_, ?_, ?_, ?_, ?_⟩
  · unfold get_image_mask
    rw [h]
    rfl
  · intro h4
    rw [if_pos h4]
    exact ⟨by simp [clip01, setAlphaMin, h4], fun y x => by simp [clip01, setAlphaMin, h4]⟩
  · intro h3
    rw [if_neg (by omega)]
    exact ⟨by simp [clip01, appendChannel, h3], fun y x => by simp [clip01, appendChannel, h3]⟩
  · intro y x ch
    dsimp only [clip01]
    split
    · exact clamp01_mem _
    · exact clamp01_mem _
  · intro h4 hnf hm y x
    rw [if_pos h4]
    dsimp only [clip01, setAlphaMin]
    rw [h4]
    norm_num
    rw [clamp01_eq_self (le_min (hnf y x 3).1 (hm y x).1)
      ((min_le_left _ _).trans (hnf y x 3).2)]
    exact ⟨min_le_left _ _, min_le_right _ _⟩

/-- Witness for C3 at a concrete converter, face and mask. -/
theorem mask_merge_policy_witness :
    baseConv.mask_run df0 none = Except.ok (onesMask, onesMask) ∧
    ∃ out, get_image_mask baseConv patchWhite df0 none = Except.ok (out, onesMask) ∧
      (patchWhite.c = 4 → out.c = 4 ∧
        ∀ y x, out.px y x 3 = clamp01 (min (patchWhite.px y x 3) (onesMask.px y x 0))) ∧
      (patchWhite.c = 3 → out.c = 4 ∧ ∀ y x, out.px y x 3 = clamp01 (onesMask.px y x 0)) ∧
      (∀ y x ch, 0 ≤ out.px y x ch ∧ out.px y x ch ≤ 1) ∧
      (patchWhite.c = 4 → (∀ y x ch, 0 ≤ patchWhite.px y x ch ∧ patchWhite.px y x ch ≤ 1) →
        (∀ y x, 0 ≤ onesMask.px y x 0 ∧ onesMask.px y x 0 ≤ 1) →
        ∀ y x, out.px y x 3 ≤ patchWhite.px y x 3 ∧ out.px y x 3 ≤ onesMask.px y x 0) :=
  ⟨rfl, mask_merge_policy baseConv patchWhite df0 none onesMask onesMask rfl⟩

/-! ### C8: intermediate buffers stay clamped to [0, 1] -/

/-- C8: whatever the collaborators return, every buffer produced by a
compositing step is clamped: the placeholder after each face is warped in,
the masked face after the alpha merge, and the blended frame returned by
`post_warp_adjustments`. -/
theorem compositing_steps_clamped (c : Converter) (fs : ℕ × ℕ) (ph : Image)
    (pr : Image × DetectedFace) (nf : Image) (df : DetectedFace) (pm : Option Image)
    (p : WorkItem) (ni o1 o2 raw o3 : Image)
    (h1 : compositeFace c fs ph pr = Except.ok o1)
    (h2 : get_image_mask c nf df pm = Except.ok (o2, raw))
    (h3 : post_warp_adjustments c p ni = Except.ok o3) :
    (∀ y x ch, 0 ≤ o1.px y x ch ∧ o1.px y x ch ≤ 1) ∧
    (∀ y x ch, 0 ≤ o2.px y x ch ∧ o2.px y x ch ≤ 1) ∧
    (∀ y x ch, 0 ≤ o3.px y x ch ∧ o3.px y x ch ≤ 1) := by
  refine ⟨?_, ?_, ?_⟩
  · simp only [compositeFace] at h1
    cases hpre : pre_warp_adjustments c pr.2.reference_face (takeRGB pr.1) pr.2 (predMask pr.1) with
    | error e => rw [hpre] at h1; simp at h1
    | ok nf2 =>
      rw [hpre] at h1
      rw [exc_bind_ok] at h1
      cases hw : c.warpAffine nf2 pr.2.reference_matrix fs ph
          (Nat.lor WARP_INVERSE_MAP pr.2.reference_interpolators.2) with
      | error e => rw [hw] at h1; simp at h1
      | ok ph2 =>
        rw [hw] at h1
        simp only [exc_bind_ok, exc_pure, Except.ok.injEq] at h1
        subst h1
        exact fun y x ch => clamp01_mem _
  · simp only [get_image_mask] at h2
    cases hm : c.mask_run df pm with
    | error e => rw [hm] at h2; simp at h2
    | ok mr =>
      obtain ⟨m, r⟩ := mr
      rw [hm] at h2
      simp only [exc_bind_ok, exc_pure, Except.ok.injEq, Prod.mk.injEq] at h2
      obtain ⟨h2a, _⟩ := h2
      subst h2a
      exact fun y x ch => clamp01_mem _
  · simp only [post_warp_adjustments] at h3
    cases hs : applyScaling c ni with
    | error e => rw [hs] at h3; simp at h3
    | ok ni2 =>
      rw [hs] at h3
      rw [exc_bind_ok] at h3
      cases ha : add_alpha_mask c (blendFrame p.image ni2) p with
      | error e => rw [ha] at h3; simp at h3
      | ok fr =>
        rw [ha] at h3
        simp only [exc_bind_ok, exc_pure, Except.ok.injEq] at h3
        subst h3
        exact fun y x ch => clamp01_mem _

/-- The constant image returned by the box stage of `convConst`. -/
def boxW : Image := ⟨1, 1, 3, fun _ _ _ => 2⟩

/-- The constant image returned by the warp of `convConst`. -/
def warpW : Image := ⟨2, 2, 4, fun _ _ _ => 3 / 2⟩

/-- A 2×2×4 buffer with every value 1/2. -/
def niW : Image := ⟨2, 2, 4, fun _ _ _ => 1 / 2⟩

/-- A converter whose box stage and warp return fixed (out-of-range) buffers. -/
def convConst : Converter :=
  { baseConv with box_run := fun _ => Except.ok boxW, warpAffine := fun _ _ _ _ _ => Except.ok warpW }

/-- A work item carrying no faces. -/
def itemEmpty : WorkItem := ⟨"n", img128, [], []⟩

/-- Witness for C8 at a converter with constant collaborator outputs. -/
theorem compositing_steps_clamped_witness :
    compositeFace convConst (2, 2) ph0M (patchWhite, df0) = Except.ok (clip01 warpW) ∧
    get_image_mask convConst patchWhite df0 none =
      Except.ok (clip01 (appendChannel patchWhite (fun y x => onesMask.px y x 0)), onesMask) ∧
    post_warp_adjustments convConst itemEmpty niW = Except.ok (clip01 (blendFrame img128 niW)) ∧
    (∀ y x ch, 0 ≤ (clip01 warpW).px y x ch ∧ (clip01 warpW).px y x ch ≤ 1) ∧
    (∀ y x ch, 0 ≤ (clip01 (appendChannel patchWhite (fun y x => onesMask.px y x 0))).px y x ch ∧
      (clip01 (appendChannel patchWhite (fun y x => onesMask.px y x 0))).px y x ch ≤ 1) ∧
    (∀ y x ch, 0 ≤ (clip01 (blendFrame img128 niW)).px y x ch ∧
      (clip01 (blendFrame img128 niW)).px y x ch ≤ 1) := by
  have t := compositing_steps_clamped convConst (2, 2) ph0M (patchWhite, df0) patchWhite df0
    none itemEmpty niW (clip01 warpW)
    (clip01 (appendChannel patchWhite (fun y x => onesMask.px y x 0))) onesMask
    (clip01 (blendFrame img128 niW)) rfl rfl rfl
  exact ⟨rfl, rfl, rfl, t.1, t.2.1, t.2.2⟩

/-! ### C4: the alpha-blend equation of `post_warp_adjustments` -/

/-- C4: writing `ni2` for the (optionally scaled) placeholder and `m` for its
last (alpha) channel, every blended RGB pixel equals
`ni2.rgb × m + (frame.rgb / 255) × (1 − m)`; hence alpha 1 yields the
foreground exactly and alpha 0 the normalised background exactly (for
in-range inputs, where the final clamp is the identity). -/
theorem blend_formula (c : Converter) (p : WorkItem) (ni ni2 : Image)
    (hsc : applyScaling c ni = Except.ok ni2)
    (htr : c.draw_transparent = false)
    (hni : ∀ y x ch, 0 ≤ ni2.px y x ch ∧ ni2.px y x ch ≤ 1)
    (hbg : ∀ y x ch, 0 ≤ p.image.px y x ch ∧ p.image.px y x ch ≤ 255) :
    ∃ out, post_warp_adjustments c p ni = Except.ok out ∧
      (∀ y x ch, ch < 3 → out.px y x ch =
        ni2.px y x ch * ni2.px y x (ni2.c - 1) +
          p.image.px y x ch / 255 * (1 - ni2.px y x (ni2.c - 1))) ∧
      (∀ y x, ni2.px y x (ni2.c - 1) = 1 → ∀ ch, ch < 3 → out.px y x ch = ni2.px y x ch) ∧
      (∀ y x, ni2.px y x (ni2.c - 1) = 0 → ∀ ch, ch < 3 →
        out.px y x ch = p.image.px y x ch / 255) := by
  have hdiv : ∀ y x ch, 0 ≤ p.image.px y x ch / 255 ∧ p.image.px y x ch / 255 ≤ 1 := by
    intro y x ch
    constructor
    · exact div_nonneg (hbg y x ch).1 (by norm_num)
    · rw [div_le_one (by norm_num)]
      exact (hbg y x ch).2
  have hval : ∀ y x ch,
      0 ≤ ni2.px y x ch * ni2.px y x (ni2.c - 1) +
        p.image.px y x ch / 255 * (1 - ni2.px y x (ni2.c - 1)) ∧
      ni2.px y x ch * ni2.px y x (ni2.c - 1) +
        p.image.px y x ch / 255 * (1 - ni2.px y x (ni2.c - 1)) ≤ 1 := by
    intro y x ch
    have hm := hni y x (ni2.c - 1)
    have ha := hni y x ch
    have hb := hdiv y x ch
    constructor
    · exact add_nonneg (mul_nonneg ha.1 hm.1) (mul_nonneg hb.1 (by linarith))
    · have h1 : ni2.px y x ch * ni2.px y x (ni2.c - 1) ≤ ni2.px y x (ni2.c - 1) :=
        mul_le_of_le_one_left hm.1 ha.2
      have h2 : p.image.px y x ch / 255 * (1 - ni2.px y x (ni2.c - 1)) ≤
          1 - ni2.px y x (ni2.c - 1) :=
        mul_le_of_le_one_left (by linarith) hb.2
      linarith
  refine ⟨clip01 (blendFrame p.image ni2), ?_, ?_, ?_, ?_⟩
  · simp only [post_warp_adjustments, hsc, exc_bind_ok, add_alpha_mask, htr, if_pos,
      exc_pure]
  · intro y x ch _
    dsimp only [clip01, blendFrame]
    exact clamp01_eq_self (hval y x ch).1 (hval y x ch).2
  · intro y x hm1 ch _
    dsimp only [clip01, blendFrame]
    rw [hm1]
    have he : ni2.px y x ch * 1 + p.image.px y x ch / 255 * (1 - 1) = ni2.px y x ch := by ring
    rw [he]
    exact clamp01_eq_self (hni y x ch).1 (hni y x ch).2
  · intro y x hm0 ch _
    dsimp only [clip01, blendFrame]
    rw [hm0]
    have he : ni2.px y x ch * 0 + p.image.px y x ch / 255 * (1 - 0) =
        p.image.px y x ch / 255 := by ring
    rw [he]
    exact clamp01_eq_self (hdiv y x ch).1 (hdiv y x ch).2

/-- Witness for C4 at a concrete converter, frame and placeholder. -/
theorem blend_formula_witness :
    applyScaling baseConv niW = Except.ok niW ∧
    baseConv.draw_transparent = false ∧
    (∃ out, post_warp_adjustments baseConv itemEmpty niW = Except.ok out ∧
      (∀ y x ch, ch < 3 → out.px y x ch =
        niW.px y x ch * niW.px y x (niW.c - 1) +
          itemEmpty.image.px y x ch / 255 * (1 - niW.px y x (niW.c - 1))) ∧
      (∀ y x, niW.px y x (niW.c - 1) = 1 → ∀ ch, ch < 3 → out.px y x ch = niW.px y x ch) ∧
      (∀ y x, niW.px y x (niW.c - 1) = 0 → ∀ ch, ch < 3 →
        out.px y x ch = itemEmpty.image.px y x ch / 255)) :=
  ⟨rfl, rfl, blend_formula baseConv itemEmpty niW niW rfl rfl
    (fun _ _ _ => ⟨by norm_num [niW], by norm_num [niW]⟩)
    (fun _ _ _ => ⟨by norm_num [itemEmpty, img128], by norm_num [itemEmpty, img128]⟩)⟩

/-! ### C9: the transparency channel of `add_alpha_mask` -/

/-- Pointwise union (maximum) of a list of single-channel masks. -/
def unionMask (ms : List Image) (y x : ℕ) : ℚ :=
  ms.foldl (fun a m => max a (m.px y x 0)) 0

theorem addAlpha_fold (c : Converter) (f : Image)
    (hor : ∀ a b, c.bitwiseOr a b = Except.ok (orImage a b)) :
    ∀ {dfs : List DetectedFace} {ms : List Image},
      List.Forall₂ (fun df m => c.maskFromLandmarks df.landmarks_as_xy f = Except.ok m) dfs ms →
      ∀ acc : Image,
        dfs.foldlM (fun acc df =>
            c.maskFromLandmarks df.landmarks_as_xy f >>= fun m => c.bitwiseOr acc m) acc =
          Except.ok (ms.foldl orImage acc) := by
  intro dfs ms hms
  induction hms with
  | nil => intro acc; rfl
  | cons hdm _ ih =>
    intro acc
    simp only [List.foldlM_cons]
    rw [hdm, exc_bind_ok, hor, exc_bind_ok, List.foldl_cons]
    exact ih _

theorem foldl_orImage_px (y x : ℕ) : ∀ (ms : List Image) (acc : Image),
    (ms.foldl orImage acc).px y x 0 = ms.foldl (fun a m => max a (m.px y x 0)) (acc.px y x 0)
  | [], _ => rfl
  | m :: ms, acc => by
    simp only [List.foldl_cons]
    rw [foldl_orImage_px y x ms (orImage acc m)]
    rfl

/-- C9: `add_alpha_mask` returns the frame unchanged when the
transparent-background flag is unset; when it is set — with `cv2.bitwise_or`
acting as pointwise union, as it does on binary masks — it appends one new
channel holding the union over all detected faces of the frame-sized masks
produced from each face's landmarks by the default mask algorithm. -/
theorem alpha_mask_union (c : Converter) (f : Image) (p : WorkItem) (ms : List Image)
    (hor : ∀ a b, c.bitwiseOr a b = Except.ok (orImage a b))
    (hms : List.Forall₂ (fun df m => c.maskFromLandmarks df.landmarks_as_xy f = Except.ok m)
      p.detected_faces ms) :
    (c.draw_transparent = false → add_alpha_mask c f p = Except.ok f) ∧
    (c.draw_transparent = true →
      add_alpha_mask c f p = Except.ok (appendChannel f (fun y x => unionMask ms y x))) := by
  constructor
  · intro ht
    simp [add_alpha_mask, ht]
  · intro ht
    simp only [add_alpha_mask, ht, Bool.true_eq_false, if_false]
    rw [addAlpha_fold c f hor hms]
    simp only [exc_bind_ok, exc_pure, Except.ok.injEq]
    refine congrArg (appendChannel f) (funext fun y => funext fun x => ?_)
    rw [foldl_orImage_px]
    rfl

/-- A converter requesting transparent output. -/
def convTrans : Converter := { baseConv with draw_transparent := true }

/-- A 2×2×3 half-grey frame. -/
def fW : Image := ⟨2, 2, 3, fun _ _ _ => 1 / 2⟩

/-- A 2×2 all-ones single-channel mask. -/
def mW : Image := ⟨2, 2, 1, fun _ _ _ => 1⟩

/-- A work item with one detected face (and no swapped patches needed here). -/
def itemW9 : WorkItem := ⟨"t", img128, [], [df0]⟩

/-- Witness for C9 at a concrete transparent-output converter. -/
theorem alpha_mask_union_witness :
    (∀ a b, convTrans.bitwiseOr a b = Except.ok (orImage a b)) ∧
    ((convTrans.draw_transparent = false → add_alpha_mask convTrans fW itemW9 = Except.ok fW) ∧
      (convTrans.draw_transparent = true →
        add_alpha_mask convTrans fW itemW9 =
          Except.ok (appendChannel fW (fun y x => unionMask [mW] y x)))) :=
  ⟨fun _ _ => rfl, alpha_mask_union convTrans fW itemW9 [mW] (fun _ _ => rfl)
    (List.Forall₂.cons rfl List.Forall₂.nil)⟩

/-! ### C5: items without faces -/

theorem pyRound_nonneg {q : ℚ} (h : 0 ≤ q) : 0 ≤ pyRound q := by
  unfold pyRound
  have hf : (0 : ℤ) ≤ ⌊q⌋ := Int.floor_nonneg.mpr h
  dsimp only
  split_ifs <;> omega

theorem pyRound_le {q : ℚ} {n : ℤ} (h : q ≤ (n : ℚ)) : pyRound q ≤ n := by
  unfold pyRound
  have hf : ⌊q⌋ ≤ n := by
    have h2 := Int.floor_le_floor h
    rwa [Int.floor_intCast] at h2
  have hfq : (⌊q⌋ : ℚ) ≤ q := Int.floor_le q
  dsimp only
  split_ifs with h1 h2 h3
  · exact hf
  · have hlt : (⌊q⌋ : ℚ) < (n : ℚ) := by linarith
    have : ⌊q⌋ < n := by exact_mod_cast hlt
    omega
  · exact hf
  · have hge : 1 / 2 ≤ q - ⌊q⌋ := le_of_not_lt h1
    have hlt : (⌊q⌋ : ℚ) < (n : ℚ) := by linarith
    have : ⌊q⌋ < n := by exact_mod_cast hlt
    omega

/-- The claim's reading of C5: with no faces and no pre-encode hook,
`patch_image` returns the original frame re-quantized to 8-bit depth, with 3
channels, or 4 iff transparent output is requested (appended channel zero). -/
def noFacesClaim (c : Converter) (p : WorkItem) : Prop :=
  ∃ out, patch_image c p = Except.ok out ∧ out.h = p.image.h ∧ out.w = p.image.w ∧
    out.c = (if c.draw_transparent then 4 else 3) ∧
    (∀ y x ch, ch < 3 → out.px y x ch = ((pyRound (p.image.px y x ch) : ℤ) : ℚ)) ∧
    (c.draw_transparent = true → ∀ y x, out.px y x 3 = 0)

/-- A converter configured with `output_scale = 200` (scale fraction 2). -/
def convScale2 : Converter := { baseConv with scale := 2 }

/-- Counterexample to C5: with a configured scale of 2 a face-less 2×2 item is
resized — the output is 4 pixels wide, not the re-quantized original frame. -/
theorem no_faces_requantize_counterexample : ¬ noFacesClaim convScale2 itemEmpty := by
  rintro ⟨out, hok, _, hw, _⟩
  have hval : (patch_image convScale2 itemEmpty).map Image.w = Except.ok 4 := by
    norm_num [patch_image, get_new_image, post_warp_adjustments, applyScaling, add_alpha_mask,
      scale_image, quantizeImage, clip01, blendFrame, appendChannel, normDiv255, convScale2,
      baseConv, itemEmpty, img128, simpleResize, pyRound, Except.map]
    decide
  have h5 : Except.ok (ε := String) 4 = Except.ok out.w := by
    rw [← hval, hok]
    rfl
  have h6 : (4 : ℕ) = out.w := by injection h5
  rw [hw] at h6
  exact absurd h6 (by decide)

/-- C5 amended: provided additionally that the configured scale is 1 and no
scaling stage is configured, an item with empty face lists (and no pre-encode
hook) yields the original 3-channel frame re-quantized to 8-bit depth,
with a 4th all-zero channel appended iff transparent output is requested. -/
theorem no_faces_requantize (c : Converter) (p : WorkItem)
    (hsw : p.swapped_faces = []) (hdf : p.detected_faces = [])
    (hpe : c.writer_pre_encode = none) (hsc : c.scale = 1) (hscal : c.scaling_run = none)
    (hrange : ∀ y x ch, 0 ≤ p.image.px y x ch ∧ p.image.px y x ch ≤ 255) :
    noFacesClaim c p := by
  have hgni : get_new_image c p (p.image.w, p.image.h) =
      Except.ok (appendChannel (normDiv255 p.image) (fun _ _ => 0)) := by
    simp only [get_new_image, hsw]
    rfl
  have hm : ∀ y x,
      (appendChannel (normDiv255 p.image) (fun _ _ => 0)).px y x
        ((appendChannel (normDiv255 p.image) (fun _ _ => 0)).c - 1) = 0 := by
    intro y x
    simp [appendChannel, normDiv255]
  have hblend : ∀ y x ch,
      (blendFrame p.image (appendChannel (normDiv255 p.image) (fun _ _ => 0))).px y x ch =
        p.image.px y x ch / 255 := by
    intro y x ch
    dsimp only [blendFrame]
    rw [hm]
    ring
  have hq : ∀ y x ch, ch < 3 →
      ∀ img : Image, img.px y x ch = p.image.px y x ch / 255 →
        (quantizeImage (clip01 img)).px y x ch = ((pyRound (p.image.px y x ch) : ℤ) : ℚ) := by
    intro y x ch _ img himg
    have hr := hrange y x ch
    have hd : 0 ≤ p.image.px y x ch / 255 ∧ p.image.px y x ch / 255 ≤ 1 :=
      ⟨div_nonneg hr.1 (by norm_num), by rw [div_le_one (by norm_num)]; exact hr.2⟩
    dsimp only [quantizeImage, clip01]
    rw [himg, clamp01_eq_self hd.1 hd.2,
      div_mul_cancel₀ _ (by norm_num : (255 : ℚ) ≠ 0)]
    have h0 : 0 ≤ pyRound (p.image.px y x ch) := pyRound_nonneg hr.1
    have h1 : pyRound (p.image.px y x ch) ≤ 255 := pyRound_le (by exact_mod_cast hr.2)
    rw [Int.emod_eq_of_lt h0 (by omega)]
  cases htr : c.draw_transparent with
  | false =>
    have hpw : post_warp_adjustments c p (appendChannel (normDiv255 p.image) (fun _ _ => 0)) =
        Except.ok (clip01 (blendFrame p.image
          (appendChannel (normDiv255 p.image) (fun _ _ => 0)))) := by
      simp only [post_warp_adjustments, applyScaling, hscal, exc_bind_ok, exc_pure,
        add_alpha_mask, htr, if_pos]
    have hsi : scale_image c (clip01 (blendFrame p.image
        (appendChannel (normDiv255 p.image) (fun _ _ => 0)))) =
        Except.ok (clip01 (blendFrame p.image
          (appendChannel (normDiv255 p.image) (fun _ _ => 0)))) := by
      simp [scale_image, hsc]
    have hpi : patch_image c p = Except.ok (quantizeImage (clip01 (blendFrame p.image
        (appendChannel (normDiv255 p.image) (fun _ _ => 0))))) := by
      unfold patch_image
      dsimp only
      rw [hgni, exc_bind_ok, hpw, exc_bind_ok, hsi, exc_bind_ok, hpe]
      rfl
    refine ⟨_, hpi, rfl, rfl, by simp [htr, quantizeImage, clip01, blendFrame], ?_, ?_⟩
    · intro y x ch hch
      exact hq y x ch hch _ (hblend y x ch)
    · intro habs
      rw [htr] at habs
      cases habs
  | true =>
    have hpw : post_warp_adjustments c p (appendChannel (normDiv255 p.image) (fun _ _ => 0)) =
        Except.ok (clip01 (appendChannel (blendFrame p.image
          (appendChannel (normDiv255 p.image) (fun _ _ => 0))) (fun _ _ => 0))) := by
      simp only [post_warp_adjustments, applyScaling, hscal, exc_bind_ok, exc_pure,
        add_alpha_mask, htr, Bool.true_eq_false, if_false, hdf, List.foldlM_nil]
    have hsi : scale_image c (clip01 (appendChannel (blendFrame p.image
        (appendChannel (normDiv255 p.image) (fun _ _ => 0))) (fun _ _ => 0))) =
        Except.ok (clip01 (appendChannel (blendFrame p.image
          (appendChannel (normDiv255 p.image) (fun _ _ => 0))) (fun _ _ => 0))) := by
      simp [scale_image, hsc]
    have hpi : patch_image c p = Except.ok (quantizeImage (clip01 (appendChannel
        (blendFrame p.image (appendChannel (normDiv255 p.image) (fun _ _ => 0)))
        (fun _ _ => 0)))) := by
      unfold patch_image
      dsimp only
      rw [hgni, exc_bind_ok, hpw, exc_bind_ok, hsi, exc_bind_ok, hpe]
      rfl
    refine ⟨_, hpi, rfl, rfl, by simp [htr, quantizeImage, clip01, appendChannel, blendFrame],
      ?_, ?_⟩
    · intro y x ch hch
      have happ : (appendChannel (blendFrame p.image
          (appendChannel (normDiv255 p.image) (fun _ _ => 0))) (fun _ _ => 0)).px y x ch =
          p.image.px y x ch / 255 := by
        dsimp only [appendChannel]
        rw [if_neg (by dsimp only [blendFrame]; omega)]
        exact hblend y x ch
      exact hq y x ch hch _ happ
    · intro _ y x
      have hz : (appendChannel (blendFrame p.image
          (appendChannel (normDiv255 p.image) (fun _ _ => 0))) (fun _ _ => 0)).px y x 3 = 0 := by
        dsimp only [appendChannel, blendFrame]
        norm_num
      dsimp only [quantizeImage, clip01]
      rw [hz, clamp01_eq_self le_rfl zero_le_one]
      norm_num [pyRound]

/-- A work item with no faces and an out-of-scale pixel value exercising the
re-quantization (value 200.5 rounds half-to-even to 200). -/
def itemNoFaces : WorkItem := ⟨"z", ⟨2, 2, 3, fun _ _ _ => 401 / 2⟩, [], []⟩

/-- Witness for the amended C5 at concrete converters with and without
transparent output. -/
theorem no_faces_requantize_witness :
    noFacesClaim baseConv itemNoFaces ∧ noFacesClaim convTrans itemNoFaces :=
  ⟨no_faces_requantize baseConv itemNoFaces rfl rfl rfl rfl rfl
      (fun _ _ _ => ⟨by norm_num [itemNoFaces], by norm_num [itemNoFaces]⟩),
    no_faces_requantize convTrans itemNoFaces rfl rfl rfl rfl rfl
      (fun _ _ _ => ⟨by norm_num [itemNoFaces], by norm_num [itemNoFaces]⟩)⟩

end Faceswap
